import Mathlib

/-!
Shallow embedding of the core of `claude-desktop-mcp-playground`:
the Config Store (`claude_desktop_mcp/config_manager.py`) and the
Registry (`claude_desktop_mcp/server_registry.py`).

JSON values are modelled by the inductive `JVal`; Python `dict`s are
insertion-ordered association lists (Python 3.7+ dicts preserve insertion
order, and documents loaded by `json.load` have unique keys).  The
`json.dump`/`json.load` pair of the Python standard library is modelled as a
faithful codec on this value domain: a configuration file on disk is either
absent, present-but-unparseable, or present with a parsed value
(`FileContent`).
-/

namespace CDMP

/-- JSON values (the domain of `json.load`/`json.dump` used by the code;
floats do not occur in the configuration documents handled here). -/
inductive JVal where
  | null
  | bool (b : Bool)
  | num (n : Int)
  | str (s : String)
  | arr (xs : List JVal)
  | obj (kvs : List (String × JVal))
deriving Repr

mutual

/-- Structural equality test for `JVal`. -/
def JVal.beq : JVal → JVal → Bool
  | .null, .null => true
  | .bool a, .bool b => a == b
  | .num a, .num b => a == b
  | .str a, .str b => a == b
  | .arr a, .arr b => JVal.beqList a b
  | .obj a, .obj b => JVal.beqObj a b
  | _, _ => false

def JVal.beqList : List JVal → List JVal → Bool
  | [], [] => true
  | a :: as, b :: bs => JVal.beq a b && JVal.beqList as bs
  | _, _ => false

def JVal.beqObj : List (String × JVal) → List (String × JVal) → Bool
  | [], [] => true
  | (ka, va) :: as, (kb, vb) :: bs => ka == kb && JVal.beq va vb && JVal.beqObj as bs
  | _, _ => false

end

instance : BEq JVal := ⟨JVal.beq⟩

/-- Python dict lookup `d[k]` modelled as an association list: value of the
first entry with key `k`. -/
def lookupKey (kvs : List (String × JVal)) (k : String) : Option JVal :=
  match kvs with
  | [] => none
  | (k', v) :: rest => if k' = k then some v else lookupKey rest k

/-- Python dict membership `k in d`. -/
def hasKey (kvs : List (String × JVal)) (k : String) : Bool :=
  match kvs with
  | [] => false
  | (k', _) :: rest => if k' = k then true else hasKey rest k

/-- Python dict assignment `d[k] = v`: update in place when the key exists
(keeping its position), append otherwise. -/
def setKey (kvs : List (String × JVal)) (k : String) (v : JVal) :
    List (String × JVal) :=
  match kvs with
  | [] => [(k, v)]
  | (k', v') :: rest =>
      if k' = k then (k, v) :: rest else (k', v') :: setKey rest k v

/-- Python dict deletion `del d[k]` (the key occurs at most once). -/
def delKey (kvs : List (String × JVal)) (k : String) : List (String × JVal) :=
  match kvs with
  | [] => []
  | (k', v') :: rest =>
      if k' = k then rest else (k', v') :: delKey rest k

/-- State of the configuration file on disk, with `json.load` applied:
absent, present but invalid JSON (carrying the parse error message), or
present with parsed content. -/
inductive FileContent where
  | absent
  | invalid (err : String)
  | valid (doc : JVal)
deriving Repr

/-- Embeds `ClaudeDesktopConfigManager.load_config`: an absent file yields the empty
document `{"mcpServers": {}}`; a present file is parsed, and a parse failure
is re-raised as `RuntimeError("Failed to load Claude Desktop config: ...")`
(modelled as `Except.error`). -/
def load_config (fc : FileContent) : Except String JVal :=
  match fc with
  | .absent => .ok (.obj [("mcpServers", .obj [])])
  | .invalid e => .error ("Failed to load Claude Desktop config: " ++ e)
  | .valid d => .ok d

/-- Embeds `ClaudeDesktopConfigManager.save_config`: a full replace of the file with
the pretty-printed document (the write itself modelled by the faithful
codec). -/
def save_config (doc : JVal) : FileContent :=
  .valid doc

/-- The `{command, args, env}` record `add_server` stores. -/
def serverEntry (command : String) (args : List JVal)
    (env : List (String × JVal)) : JVal :=
  .obj [("command", .str command), ("args", .arr args), ("env", .obj env)]

/-- Embeds `ClaudeDesktopConfigManager.add_server`: load, ensure the `mcpServers`
key, overwrite the entry at `name`, save.  A document whose top level (or
whose `mcpServers` value) is not an object makes the Python code raise an
uncaught `TypeError`; that is modelled as `Except.error`. -/
def add_server (name command : String) (args : List JVal)
    (env : List (String × JVal)) (fc : FileContent) :
    Except String FileContent :=
  match load_config fc with
  | .error e => .error e
  | .ok config =>
    match config with
  | .obj kvs =>
      let kvs := if hasKey kvs "mcpServers" then kvs
                 else kvs ++ [("mcpServers", .obj [])]
      match lookupKey kvs "mcpServers" with
      | some (.obj m) =>
          let m := setKey m name (serverEntry command args env)
          .ok (save_config (.obj (setKey kvs "mcpServers" (.obj m))))
      | _ => .error "TypeError"
  | _ => .error "TypeError"

/-- Embeds `ClaudeDesktopConfigManager.remove_server`: load; when `mcpServers` is
missing or lacks `name`, return `false` without saving; otherwise delete the
entry, save, and return `true`. -/
def remove_server (name : String) (fc : FileContent) :
    Except String (Bool × FileContent) :=
  match load_config fc with
  | .error e => .error e
  | .ok config =>
    match config with
  | .obj kvs =>
      match lookupKey kvs "mcpServers" with
      | some (.obj m) =>
          if hasKey m name then
            let m := delKey m name
            .ok (true, save_config (.obj (setKey kvs "mcpServers" (.obj m))))
          else
            .ok (false, fc)
      | some _ => .error "TypeError"
      | none => .ok (false, fc)
  | _ => .error "TypeError"

/-- Embeds `ClaudeDesktopConfigManager.list_servers`: `config.get("mcpServers", {})`. -/
def list_servers (fc : FileContent) : Except String (List (String × JVal)) :=
  match load_config fc with
  | .error e => .error e
  | .ok config =>
    match config with
  | .obj kvs =>
      match lookupKey kvs "mcpServers" with
      | some (.obj m) => .ok m
      | some _ => .error "TypeError"
      | none => .ok []
  | _ => .error "TypeError"

/-- Result record of `validate_config`. -/
structure ValidationResult where
  valid : Bool
  errors : List String
  warnings : List String
deriving Repr, DecidableEq

/-- Embeds the command-existence probe of `validate_config`: the command is
non-empty (Python truthiness), `Path(command).exists()` is false, and no
`PATH` entry `p` has `(Path(p) / command).exists()` (path join modelled with
a forward slash). -/
def commandMayNotExist (fsExists : String → Bool) (pathDirs : List String)
    (command : String) : Bool :=
  !(command == "") && !(fsExists command) &&
    !(pathDirs.any fun p => fsExists (p ++ "/" ++ command))

/-- Embeds one iteration of the `for server_name, server_config in
servers.items()` loop of `validate_config`.  A `command` value that is
present but not a string makes the Python code raise an uncaught `TypeError`
inside `Path(command)`; that is modelled as `none`. -/
def validateEntry (fsExists : String → Bool) (pathDirs : List String)
    (acc : ValidationResult) (name : String) (cfg : JVal) :
    Option ValidationResult :=
  match cfg with
  | .obj fields =>
      let acc :=
        if hasKey fields "command" then acc
        else { acc with
               errors := acc.errors ++
                 ["Server '" ++ name ++ "' missing 'command' field"],
               valid := false }
      match (lookupKey fields "command").getD (.str "") with
      | .str c =>
          if commandMayNotExist fsExists pathDirs c then
            some { acc with
                   warnings := acc.warnings ++
                     ["Command '" ++ c ++ "' for server '" ++ name ++
                      "' may not exist"] }
          else some acc
      | _ => none
  | _ =>
      some { acc with
             errors := acc.errors ++
               ["Server '" ++ name ++ "' config is not a dictionary"],
             valid := false }

/-- Folds `validateEntry` over the entries of `mcpServers`, in order. -/
def validateEntries (fsExists : String → Bool) (pathDirs : List String)
    (acc : ValidationResult) :
    List (String × JVal) → Option ValidationResult
  | [] => some acc
  | (n, cfg) :: rest => do
      let acc ← validateEntry fsExists pathDirs acc n cfg
      validateEntries fsExists pathDirs acc rest

/-- Embeds `ClaudeDesktopConfigManager.validate_config`.  An absent file is a
warning only; an unparseable file is an error (`valid = false`, with the
`load_config` message wrapped as `Failed to load config: ...`); otherwise the
entries of `mcpServers` are checked in order.  A top-level document or
`mcpServers` value that is not an object makes the Python code raise an
uncaught `TypeError`; that is modelled as `none`. -/
def validate_config (fsExists : String → Bool) (pathDirs : List String)
    (fc : FileContent) : Option ValidationResult :=
  match fc with
  | .absent =>
      some ⟨true, [], ["Claude Desktop config file does not exist"]⟩
  | .invalid e =>
      some ⟨false,
            ["Failed to load config: Failed to load Claude Desktop config: "
              ++ e], []⟩
  | .valid d =>
      match d with
      | .obj kvs =>
          match lookupKey kvs "mcpServers" with
          | none => some ⟨true, [], ["No 'mcpServers' section found"]⟩
          | some (.obj servers) =>
              validateEntries fsExists pathDirs ⟨true, [], []⟩ servers
          | some _ => none
      | _ => none

/-- State of the per-id install directory `servers_dir / server_id`:
absent, or present after a successful `git clone` with the number of build
commands that completed in it. -/
inductive ServerDir where
  | absent
  | cloned (builtSteps : Nat)
deriving Repr, DecidableEq

/-- Embeds the except-handler of `install_git_server`:
`if server_path.exists(): shutil.rmtree(server_path)`. -/
def cleanupDir : ServerDir → ServerDir
  | _ => .absent

/-- Embeds the build loop of `install_git_server`: the declared build
commands run in order (`subprocess.run(..., check=True)`); the first failure
raises `CalledProcessError`, which the handler turns into a cleanup plus a
`RuntimeError`.  `outcomes` lists each command's success, in order. -/
def runBuildCommands (steps : Nat) :
    List Bool → Except String Unit × ServerDir
  | [] => (.ok (), .cloned steps)
  | ok :: rest =>
      if ok then runBuildCommands (steps + 1) rest
      else (.error "Failed to install git server: build command failed",
            cleanupDir (.cloned steps))

/-- Embeds `ClaudeDesktopConfigManager.install_git_server`: any pre-existing
per-id directory is removed first (clean reinstall), then `git clone` runs
(`check=True`); on clone failure any debris is removed by the handler; on
success the build commands run in order, and a failing build likewise rolls
the directory back.  `initial` is the directory state before the call,
`cloneOk` the clone outcome, `cloneDebris` whether a failed clone left a
directory behind, `buildResults` the per-command outcomes.  Returns the
Python result (`server_path` on success, `RuntimeError` on failure) paired
with the final directory state. -/
def install_git_server (initial : ServerDir) (cloneOk cloneDebris : Bool)
    (buildResults : List Bool) : Except String Unit × ServerDir :=
  let _ := cleanupDir initial
  if cloneOk then runBuildCommands 0 buildResults
  else
    (.error "Failed to install git server: git clone failed",
     cleanupDir (if cloneDebris then .cloned 0 else .absent))

/-! Registry (`server_registry.py`).  The host system is abstracted by
`SysEnv`: the OS name, home directory, the environment variables read by
`_expand_env_vars`, the file-existence predicate (`Path(...).exists()`) and
glob expansion (`glob.glob`). -/

/-- Abstraction of the host system as seen by the Registry. -/
structure SysEnv where
  system : String
  home : String
  localappdata : Option String := none
  appdata : Option String := none
  userprofile : Option String := none
  fsExists : String → Bool
  glob : String → List String

/-- Whether the first list is a prefix of the second, on characters. -/
def prefixMatches : List Char → List Char → Bool
  | [], _ => true
  | _ :: _, [] => false
  | a :: as, b :: bs => a == b && prefixMatches as bs

/-- Whether `needle` occurs as a contiguous sublist of the haystack. -/
def charListContains (needle : List Char) : List Char → Bool
  | [] => prefixMatches needle []
  | c :: rest => prefixMatches needle (c :: rest) || charListContains needle rest

/-- Python substring test `needle in hay`. -/
def strContains (hay needle : String) : Bool :=
  charListContains needle.data hay.data

/-- Python `str.startswith`, structurally on characters. -/
def strStartsWith (s pre : String) : Bool :=
  prefixMatches pre.data s.data

/-- Python `str.endswith`, structurally on characters. -/
def strEndsWith (s suf : String) : Bool :=
  prefixMatches suf.data.reverse s.data.reverse

/-- Python `str.lower` (the strings handled here are ASCII, on which
`Char.toLower` agrees with Python). -/
def strToLower (s : String) : String :=
  ⟨s.data.map Char.toLower⟩

/-- Replaces every non-overlapping occurrence of `pat`, left to right
(Python `str.replace` for the non-empty patterns the code uses); the fuel
argument makes the recursion structural, one unit per character consumed. -/
def replaceCharsAux (pat rep : List Char) : Nat → List Char → List Char
  | _, [] => []
  | 0, l => l
  | fuel + 1, c :: rest =>
      if pat ≠ [] ∧ prefixMatches pat (c :: rest) = true then
        rep ++ replaceCharsAux pat rep fuel ((c :: rest).drop pat.length)
      else c :: replaceCharsAux pat rep fuel rest

/-- Python `str.replace` on whole strings. -/
def strReplace (s pat rep : String) : String :=
  ⟨replaceCharsAux pat.data rep.data s.data.length s.data⟩

/-- Embeds `MCPServerRegistry._get_platform_key`: lowercased
`platform.system()`, with `darwin` normalised to `macos`, `windows` kept,
everything else `linux`. -/
def getPlatformKey (env : SysEnv) : String :=
  let s := strToLower env.system
  if s = "darwin" then "macos"
  else if s = "windows" then "windows"
  else "linux"

/-- Embeds `MCPServerRegistry._expand_env_vars`: replaces the four named
markers with the corresponding environment values (empty string when unset;
`USERPROFILE` falls back to the home directory, `HOME` is always the home
directory).  The source's containment guards before each `replace` are
semantic no-ops. -/
def expandEnvVars (env : SysEnv) (path : String) : String :=
  let p := strReplace path "{LOCALAPPDATA}" (env.localappdata.getD "")
  let p := strReplace p "{APPDATA}" (env.appdata.getD "")
  let p := strReplace p "{USERPROFILE}" (env.userprofile.getD env.home)
  strReplace p "{HOME}" env.home

/-- Embeds `str(Path(p).expanduser())` for the paths used here (a leading
`~` followed by a path separator, or a bare `~`): the `~` is replaced by the
home directory. -/
def expanduser (env : SysEnv) (p : String) : String :=
  env.home ++ p.drop 1

/-- Per-platform override bundle inside `platform_config`. -/
structure PlatformInfo where
  command : String
  args_template : List String
  default_paths : List String := []
  executable_patterns : List String := []
deriving Repr, DecidableEq

/-- Git install metadata (`git_config`). -/
structure GitConfig where
  url : String
  executable_path : String
  build_commands : List String := []
deriving Repr, DecidableEq

/-- One registry descriptor, with the defaults the dict accesses use
(`server.get("install_method", "npm")`, `server.get("required_args", [])`,
`server.get("package", "")`). -/
structure ServerInfo where
  name : String
  description : String := ""
  category : String := ""
  package : String := ""
  install_method : String := "npm"
  command : String
  args_template : List String := []
  required_args : List String := []
  env_vars : List (String × String) := []
  platform_config : List (String × PlatformInfo) := []
  git_config : Option GitConfig := none
deriving Repr, DecidableEq

/-- Generic association-list lookup (Python dict access). -/
def alookup {α : Type} (kvs : List (String × α)) (k : String) : Option α :=
  match kvs with
  | [] => none
  | (k', v) :: rest => if k' = k then some v else alookup rest k

/-- First glob match that exists on disk (`for match in matches: if
Path(match).exists(): return match`). -/
def firstExistingGlobMatch (env : SysEnv) : List String → Option String
  | [] => none
  | m :: rest =>
      if env.fsExists m then some m else firstExistingGlobMatch env rest

/-- Embeds one iteration of the `executable_patterns` loop of
`_find_executable`: expand environment markers; a pattern containing `*` is
glob-expanded and the first existing match taken; otherwise a leading `~` is
expanded to the home directory and existence tested directly. -/
def tryPattern (env : SysEnv) (pattern : String) : Option String :=
  let expanded := expandEnvVars env pattern
  if strContains expanded "*" then
    firstExistingGlobMatch env (env.glob expanded)
  else
    let expanded :=
      if strStartsWith expanded "~" then expanduser env expanded else expanded
    if env.fsExists expanded then some expanded else none

/-- Embeds one iteration of the `default_paths` loop of `_find_executable`:
expand environment markers, then a direct existence test (no glob and no `~`
handling on this list). -/
def tryDefaultPath (env : SysEnv) (path : String) : Option String :=
  let expanded := expandEnvVars env path
  if env.fsExists expanded then some expanded else none

/-- First candidate accepted by `f`, in list order. -/
def firstSome {α : Type} (f : String → Option α) : List String → Option α
  | [] => none
  | x :: rest =>
      match f x with
      | some r => some r
      | none => firstSome f rest

/-- Embeds `MCPServerRegistry._find_executable`: select the platform bundle
for the running OS, try every `default_paths` candidate in order, then every
`executable_patterns` candidate in order; `None` when nothing exists. -/
def find_executable (env : SysEnv) (server : ServerInfo) : Option String :=
  match alookup server.platform_config (getPlatformKey env) with
  | none => none
  | some pinfo =>
      match firstSome (tryDefaultPath env) pinfo.default_paths with
      | some p => some p
      | none => firstSome (tryPattern env) pinfo.executable_patterns

/-- Result of `_configure_platform_specific`. -/
structure PlatResolution where
  command : String
  args : List String
  executable_path : String
deriving Repr, DecidableEq

/-- Embeds `MCPServerRegistry._configure_platform_specific`: only for
`command == "auto_detect"` descriptors with a bundle for the running OS and a
discoverable executable; builds `args` from the bundle's template, replacing
`{executable_path}` and expanding other environment markers. -/
def configure_platform_specific (env : SysEnv) (server : ServerInfo) :
    Option PlatResolution :=
  if server.command ≠ "auto_detect" then none
  else
    match alookup server.platform_config (getPlatformKey env) with
    | none => none
    | some pinfo =>
        match find_executable env server with
        | none => none
        | some epath =>
            let args := pinfo.args_template.map fun t =>
              if strContains t "{executable_path}" then
                strReplace t "{executable_path}" epath
              else if strContains t "\x7b" && strContains t "\x7d" then
                expandEnvVars env t
              else t
            some ⟨pinfo.command, args, epath⟩

/-- Resolved install plan returned by `generate_install_command` (the fields
of the returned dict; `server_id` stands for the `"id"` key that
`get_server` merges in). -/
structure InstallPlan where
  server_id : String
  name : String
  command : String
  args : List String
  env : List (String × String)
  package : String
  install_method : String
  executable_path : Option String := none
  git_config : Option GitConfig := none
deriving Repr, DecidableEq

/-- Embeds the env-var loop of `generate_install_command`: every declared
`env_vars` key also present in `user_args` is copied with the supplied
value, in declaration order. -/
def buildEnvVars (env_vars : List (String × String))
    (user_args : List (String × String)) : List (String × String) :=
  env_vars.filterMap fun kv => (alookup user_args kv.1).map fun v => (kv.1, v)

/-- Token classification used by the args loop: a token shaped like an
angle-bracket placeholder (`t.startswith("<") and t.endswith(">")`). -/
def isPlaceholderToken (t : String) : Bool :=
  strStartsWith t "<" && strEndsWith t ">"

/-- Placeholder name of a token: the angle brackets stripped (`t[1:-1]`). -/
def placeholderName (t : String) : String :=
  (t.drop 1).dropRight 1

/-- Embeds the args loop of the ordinary-template branch of
`generate_install_command`: a token of shape `<name>` is replaced by
`user_args[name]` when supplied, dropped when unsupplied and optional, and
fails the whole resolution (the Python `return None`) when unsupplied and
required; any other token is copied verbatim. -/
def substituteArgs (user_args : List (String × String))
    (required_args : List String) : List String → Option (List String)
  | [] => some []
  | t :: rest =>
      if isPlaceholderToken t then
        match alookup user_args (placeholderName t) with
        | some v =>
            (substituteArgs user_args required_args rest).map (v :: ·)
        | none =>
            if required_args.contains (placeholderName t) then none
            else substituteArgs user_args required_args rest
      else (substituteArgs user_args required_args rest).map (t :: ·)

/-- Embeds `MCPServerRegistry.generate_install_command`: unknown id fails;
`auto_detect` descriptors go through platform resolution; git descriptors
with a `git_config` pass their template through unsubstituted; ordinary
descriptors get token-by-token substitution.  Failures are the Python
`return None`.  (In the source the final return-dict literal is followed by
a merge artifact — stray registry entries pasted into the expression — the
fields modelled are the ones the literal declares.) -/
def generate_install_command (env : SysEnv)
    (registry : List (String × ServerInfo)) (server_id : String)
    (user_args : List (String × String)) : Option InstallPlan :=
  match alookup registry server_id with
  | none => none
  | some server =>
      if server.command = "auto_detect" then
        match configure_platform_specific env server with
        | none => none
        | some pc =>
            some { server_id := server_id, name := server.name,
                   command := pc.command, args := pc.args, env := [],
                   package := server.package,
                   install_method := server.install_method,
                   executable_path := some pc.executable_path }
      else if server.install_method = "git" && server.git_config.isSome then
        some { server_id := server_id, name := server.name,
               command := server.command, args := server.args_template,
               env := buildEnvVars server.env_vars user_args,
               package := server.package, install_method := "git",
               git_config := server.git_config }
      else
        match substituteArgs user_args server.required_args
                server.args_template with
        | none => none
        | some args =>
            some { server_id := server_id, name := server.name,
                   command := server.command, args := args,
                   env := buildEnvVars server.env_vars user_args,
                   package := server.package,
                   install_method := server.install_method }

/-- Embeds the relevance score of the first `search` definition: exact id
match 100, id contains query 50, lowercased name contains query 30,
lowercased description contains query 10, else 0. -/
def relevance_score (query : String) (item : String × ServerInfo) : Nat :=
  if query = item.1 then 100
  else if strContains item.1 query then 50
  else if strContains (strToLower item.2.name) query then 30
  else if strContains (strToLower item.2.description) query then 10
  else 0

/-- Stable insertion (descending by score): an element goes after every
already-placed element of greater-or-equal score, matching the stability of
Python's `list.sort(key=..., reverse=True)`. -/
def insertByScoreDesc (score : String × ServerInfo → Nat)
    (x : String × ServerInfo) :
    List (String × ServerInfo) → List (String × ServerInfo)
  | [] => [x]
  | y :: ys =>
      if score y < score x then x :: y :: ys
      else y :: insertByScoreDesc score x ys

/-- Stable sort, descending by score, processing elements in their original
order. -/
def stableSortDesc (score : String × ServerInfo → Nat)
    (l : List (String × ServerInfo)) : List (String × ServerInfo) :=
  l.foldl (fun acc x => insertByScoreDesc score x acc) []

/-- Embeds the first `MCPServerRegistry.search` definition (lines 945-977):
lowercase the query, keep the entries whose concatenated
id/name/description/category text contains it, then stably sort by
relevance, highest first. -/
def search_v1 (registry : List (String × ServerInfo)) (query : String) :
    List (String × ServerInfo) :=
  let query := strToLower query
  let results := registry.filter fun item =>
    strContains
      (strToLower (item.1 ++ " " ++ item.2.name ++ " " ++ item.2.description
        ++ " " ++ item.2.category)) query
  stableSortDesc (relevance_score query) results

/-- Embeds the second `MCPServerRegistry.search` definition (lines
1298-1312), the one that overrides the first in the class body: empty query
returns the catalog values in insertion order; otherwise the entries whose
name, description or id contains the lowercased query, in insertion order,
with no ranking. -/
def search_v2 (registry : List (String × ServerInfo)) (query : String) :
    List (String × ServerInfo) :=
  if query = "" then registry
  else
    let ql := strToLower query
    registry.filter fun item =>
      strContains (strToLower item.2.name) ql ||
      strContains (strToLower item.2.description) ql ||
      strContains (strToLower item.1) ql

/-! Spec-side descriptions used by the refinement theorems, and concrete
descriptors taken from the registry literal for witnesses. -/

/-- Spec-side per-token resolution, following the claim's words: a
placeholder resolves to the user-supplied value (dropped when unsupplied),
any other token is copied verbatim. -/
def specTokenResolve (user_args : List (String × String)) (t : String) :
    Option String :=
  if isPlaceholderToken t then alookup user_args (placeholderName t)
  else some t

/-- Spec-side per-candidate executable test, following the claim's words: a
candidate containing a glob wildcard is expanded and the first on-disk match
taken; a candidate with a leading `~` is expanded to the home directory and
tested; any other candidate gets a direct existence test (environment
markers expanded first in every case). -/
def specCandidateResolve (env : SysEnv) (c : String) : Option String :=
  let expanded := expandEnvVars env c
  if strContains expanded "*" then
    firstExistingGlobMatch env (env.glob expanded)
  else if strStartsWith expanded "~" then
    let expanded := expanduser env expanded
    if env.fsExists expanded then some expanded else none
  else if env.fsExists expanded then some expanded else none

/-- The `filesystem` descriptor of the registry literal (lines 25-39). -/
def filesystemInfo : ServerInfo :=
  { name := "Filesystem Server",
    description := "Secure file operations with configurable access controls. Read, write, and manage files and directories.",
    category := "official",
    package := "@modelcontextprotocol/server-filesystem",
    install_method := "npm", command := "npx",
    args_template := ["-y", "@modelcontextprotocol/server-filesystem", "<path>"],
    required_args := ["path"] }

/-- The `time` descriptor of the registry literal (lines 265-279). -/
def timeInfo : ServerInfo :=
  { name := "Time Server",
    description := "Time and timezone utilities. Get current time, convert between timezones, format dates.",
    category := "official", package := "mcp-server-time",
    install_method := "uvx", command := "uvx",
    args_template := ["mcp-server-time", "--local-timezone", "<timezone>"],
    required_args := ["timezone"] }

/-- A registry entry whose id contains `time` without being `time` (the
registry is extensible through `custom_registry.json` and the custom server
files, so such ids are reachable). -/
def tzInfo : ServerInfo :=
  { name := "Timezone Helper", description := "Helps with timezones.",
    category := "community", command := "npx",
    args_template := ["-y", "tz-helper"] }

/-- A two-entry registry in which an id containing the query precedes the
exact-id match in insertion order. -/
def miniRegistry : List (String × ServerInfo) :=
  [("timezone-helper", tzInfo), ("time", timeInfo)]

/-- An `auto_detect` descriptor with a `linux` bundle whose `default_paths`
are the two literal candidates of the spec's example. -/
def sandboxInfo : ServerInfo :=
  { name := "Code Sandbox", command := "auto_detect",
    platform_config := [("linux",
      { command := "sh",
        args_template := ["-c", "{HOME}/.local/bin/code-sandbox-mcp"],
        default_paths := ["/a", "/b"] })] }

/-- A host on which nothing exists on disk. -/
def envNone : SysEnv :=
  { system := "Linux", home := "/home/u",
    fsExists := fun _ => false, glob := fun _ => [] }

/-- A host on which exactly `/b` exists on disk. -/
def envOnlyB : SysEnv :=
  { system := "Linux", home := "/home/u",
    fsExists := fun p => p == "/b", glob := fun _ => [] }

/-! Association-list lemmas shared by the Config Store theorems. -/

theorem hasKey_of_lookupKey_some {l : List (String × JVal)} {k : String}
    {v : JVal} (h : lookupKey l k = some v) : hasKey l k = true := by
  induction l with
  | nil => simp [lookupKey] at h
  | cons hd tl ih =>
      by_cases hk : hd.1 = k
      · simp [hasKey, hk]
      · simp only [lookupKey, hk, if_false] at h
        simp [hasKey, hk, ih h]

theorem lookupKey_setKey_self (l : List (String × JVal)) (k : String)
    (v : JVal) : lookupKey (setKey l k v) k = some v := by
  induction l with
  | nil => simp [setKey, lookupKey]
  | cons hd tl ih =>
      by_cases hk : hd.1 = k
      · simp [setKey, hk, lookupKey]
      · simp [setKey, hk, lookupKey, ih]

theorem lookupKey_setKey_ne (l : List (String × JVal)) (k k' : String)
    (v : JVal) (h : k' ≠ k) :
    lookupKey (setKey l k v) k' = lookupKey l k' := by
  have hne : ¬k = k' := fun hh => h hh.symm
  induction l with
  | nil => simp [setKey, lookupKey, hne]
  | cons hd tl ih =>
      by_cases hk : hd.1 = k
      · simp only [setKey, hk, if_pos]
        simp [lookupKey, hne, hk]
      · simp only [setKey, hk, if_false]
        simp [lookupKey, ih]

theorem hasKey_setKey_self (l : List (String × JVal)) (k : String)
    (v : JVal) : hasKey (setKey l k v) k = true :=
  hasKey_of_lookupKey_some (lookupKey_setKey_self l k v)

theorem filter_setKey (l : List (String × JVal)) (k : String) (v : JVal) :
    (setKey l k v).filter (fun kv => kv.1 != k) =
      l.filter (fun kv => kv.1 != k) := by
  induction l with
  | nil => simp [setKey]
  | cons hd tl ih =>
      by_cases hk : hd.1 = k
      · simp [setKey, hk, List.filter]
      · simp only [setKey, hk, if_false]
        simp [List.filter, ih]

theorem filter_delKey (l : List (String × JVal)) (k : String) :
    (delKey l k).filter (fun kv => kv.1 != k) =
      l.filter (fun kv => kv.1 != k) := by
  induction l with
  | nil => simp [delKey]
  | cons hd tl ih =>
      by_cases hk : hd.1 = k
      · simp [delKey, hk, List.filter]
      · simp only [delKey, hk, if_false]
        simp [List.filter, ih]

theorem length_setKey_of_hasKey (l : List (String × JVal)) (k : String)
    (v : JVal) (h : hasKey l k = true) :
    (setKey l k v).length = l.length := by
  induction l with
  | nil => simp [hasKey] at h
  | cons hd tl ih =>
      by_cases hk : hd.1 = k
      · simp [setKey, hk]
      · simp only [hasKey, hk, if_false] at h
        simp [setKey, hk, ih h]

theorem keys_setKey_of_hasKey (l : List (String × JVal)) (k : String)
    (v : JVal) (h : hasKey l k = true) :
    (setKey l k v).map Prod.fst = l.map Prod.fst := by
  induction l with
  | nil => simp [hasKey] at h
  | cons hd tl ih =>
      by_cases hk : hd.1 = k
      · simp [setKey, hk]
      · simp only [hasKey, hk, if_false] at h
        simp [setKey, hk, ih h]

theorem setKey_of_hasKey_false (l : List (String × JVal)) (k : String)
    (v : JVal) (h : hasKey l k = false) : setKey l k v = l ++ [(k, v)] := by
  induction l with
  | nil => simp [setKey]
  | cons hd tl ih =>
      by_cases hk : hd.1 = k
      · simp [hasKey, hk] at h
      · simp only [hasKey, hk, if_false] at h
        simp [setKey, hk, ih h]

theorem mem_keys_of_hasKey {l : List (String × JVal)} {k : String}
    (h : hasKey l k = true) : k ∈ l.map Prod.fst := by
  induction l with
  | nil => simp [hasKey] at h
  | cons hd tl ih =>
      by_cases hk : hd.1 = k
      · simp [hk.symm]
      · simp only [hasKey, hk, if_false] at h
        simp [ih h]

theorem hasKey_false_of_not_mem {l : List (String × JVal)} {k : String}
    (h : k ∉ l.map Prod.fst) : hasKey l k = false := by
  induction l with
  | nil => simp [hasKey]
  | cons hd tl ih =>
      simp only [List.map_cons, List.mem_cons] at h
      push_neg at h
      have h1 : ¬hd.1 = k := fun hh => h.1 hh.symm
      simp [hasKey, h1, ih h.2]

theorem hasKey_true_of_mem_keys {l : List (String × JVal)} {k : String}
    (h : k ∈ l.map Prod.fst) : hasKey l k = true := by
  induction l with
  | nil => simp at h
  | cons hd tl ih =>
      by_cases hk : hd.1 = k
      · simp [hasKey, hk]
      · simp only [List.map_cons, List.mem_cons] at h
        rcases h with h | h
        · exact absurd h.symm hk
        · simp [hasKey, hk, ih h]

theorem nodup_keys_setKey (l : List (String × JVal)) (k : String) (v : JVal)
    (h : (l.map Prod.fst).Nodup) :
    ((setKey l k v).map Prod.fst).Nodup := by
  by_cases hk : hasKey l k = true
  · rw [keys_setKey_of_hasKey l k v hk]; exact h
  · have hk' : hasKey l k = false := by simpa using hk
    have hnm : k ∉ l.map Prod.fst := fun hm => hk (hasKey_true_of_mem_keys hm)
    rw [setKey_of_hasKey_false l k v hk']
    simp only [List.map_append, List.map_cons, List.map_nil]
    exact List.Nodup.append h (List.nodup_singleton k)
      (fun a ha hb => by
        simp only [List.mem_singleton] at hb
        exact hnm (hb ▸ ha))

theorem filterKey_setKey_of_nodup (l : List (String × JVal)) (k : String)
    (v : JVal) (h : (l.map Prod.fst).Nodup) :
    (setKey l k v).filter (fun kv => kv.1 == k) = [(k, v)] := by
  induction l with
  | nil => simp [setKey, List.filter]
  | cons hd tl ih =>
      simp only [List.map_cons, List.nodup_cons] at h
      by_cases hk : hd.1 = k
      · subst hk
        have : hasKey tl hd.1 = false := hasKey_false_of_not_mem h.1
        have hfil : tl.filter (fun kv => kv.1 == hd.1) = [] := by
          rw [List.filter_eq_nil_iff]
          intro kv hkv
          have : kv.1 ≠ hd.1 := by
            intro he
            exact h.1 (he ▸ List.mem_map_of_mem Prod.fst hkv)
          simpa using this
        simp [setKey, List.filter, hfil]
      · have hbeq : (hd.1 == k) = false := by simpa using hk
        simp only [setKey, hk, if_false]
        simp [List.filter, hbeq, ih h.2]

theorem lookupKey_none_of_hasKey_false {l : List (String × JVal)}
    {k : String} (h : hasKey l k = false) : lookupKey l k = none := by
  induction l with
  | nil => simp [lookupKey]
  | cons hd tl ih =>
      by_cases hk : hd.1 = k
      · simp [hasKey, hk] at h
      · simp only [hasKey, hk, if_false] at h
        simp [lookupKey, hk, ih h]

theorem lookupKey_delKey_self (l : List (String × JVal)) (k : String)
    (h : (l.map Prod.fst).Nodup) : lookupKey (delKey l k) k = none := by
  induction l with
  | nil => simp [delKey, lookupKey]
  | cons hd tl ih =>
      simp only [List.map_cons, List.nodup_cons] at h
      by_cases hk : hd.1 = k
      · simp only [delKey, hk, if_pos]
        exact lookupKey_none_of_hasKey_false
          (hasKey_false_of_not_mem (hk ▸ h.1))
      · simp [delKey, hk, lookupKey, ih h.2]

theorem lookupKey_delKey_ne (l : List (String × JVal)) (k k' : String)
    (h : k' ≠ k) : lookupKey (delKey l k) k' = lookupKey l k' := by
  induction l with
  | nil => simp [delKey]
  | cons hd tl ih =>
      by_cases hk : hd.1 = k
      · have h1 : ¬k = k' := fun hh => h hh.symm
        simp [delKey, hk, lookupKey, h1]
      · simp [delKey, hk, lookupKey, ih]

/-- C7: for every ConfigDocument, saving it and then loading returns the
same document: `save_config` is a full replace of the file and `load_config`
returns the parsed content untransformed; key order is preserved by the
insertion-ordered object representation. -/
theorem save_load_roundtrip (D : JVal) :
    load_config (save_config D) = .ok D := rfl

/-- C8: `load_config` on an absent file returns the empty document (a
mapping with zero instances) instead of failing, and on an unparseable file
fails with an error carrying the underlying parse error; being a pure
read-only function of the file state, it never repairs or replaces the
file. -/
theorem load_config_absent_or_corrupt :
    load_config .absent = .ok (.obj [("mcpServers", .obj [])]) ∧
    ∀ e, load_config (.invalid e) =
      .error ("Failed to load Claude Desktop config: " ++ e) :=
  ⟨rfl, fun _ => rfl⟩

theorem runBuildCommands_spec (bs : List Bool) (steps : Nat) :
    (runBuildCommands steps bs = (.ok (), .cloned (steps + bs.length)) ∧
      bs.all id = true) ∨
    (∃ msg, runBuildCommands steps bs = (.error msg, .absent)) := by
  induction bs generalizing steps with
  | nil => left; simp [runBuildCommands]
  | cons b rest ih =>
      cases b
      · right
        exact ⟨"Failed to install git server: build command failed",
          by simp [runBuildCommands, cleanupDir]⟩
      · rcases ih (steps + 1) with ⟨h1, h2⟩ | ⟨msg, h1⟩
        · left
          refine ⟨?_, by simp [h2]⟩
          have harith : steps + 1 + rest.length = steps + (rest.length + 1) := by
            omega
          simp only [runBuildCommands, if_pos, List.length_cons]
          rw [h1, harith]
        · right
          exact ⟨msg, by simp [runBuildCommands, h1]⟩

/-- C4: `install_git_server` either succeeds with the per-id directory fully
built (cloned, with every declared build command completed) or fails with
the directory removed — never a half-built leftover — for every initial
directory state (including a pre-existing install, which is removed first)
and every combination of clone and build outcomes. -/
theorem install_git_server_rollback (initial : ServerDir)
    (cloneOk cloneDebris : Bool) (buildResults : List Bool) :
    (install_git_server initial cloneOk cloneDebris buildResults =
       (.ok (), .cloned buildResults.length) ∧
      cloneOk = true ∧ buildResults.all id = true) ∨
    (∃ msg, install_git_server initial cloneOk cloneDebris buildResults =
       (.error msg, .absent)) := by
  cases cloneOk
  · right
    exact ⟨"Failed to install git server: git clone failed",
      by simp [install_git_server, cleanupDir]⟩
  · rcases runBuildCommands_spec buildResults 0 with ⟨h1, h2⟩ | ⟨msg, h1⟩
    · left
      refine ⟨?_, rfl, h2⟩
      simpa [install_git_server] using h1
    · right
      exact ⟨msg, by simpa [install_git_server] using h1⟩

/-- C5: on a stored document whose `mcpServers` object contains `name`,
`remove_server` returns `true` and stores a document in which exactly that
entry is gone (lookup of `name` fails, every other lookup is unchanged);
when `name` is absent it returns `false` and the stored state is exactly the
input state (no save). -/
theorem remove_server_exact (name : String) (d m : List (String × JVal))
    (hm : lookupKey d "mcpServers" = some (.obj m))
    (hnd : (m.map Prod.fst).Nodup) :
    (hasKey m name = true →
      remove_server name (.valid (.obj d)) =
        .ok (true,
          .valid (.obj (setKey d "mcpServers" (.obj (delKey m name))))) ∧
      lookupKey (delKey m name) name = none ∧
      ∀ k, k ≠ name → lookupKey (delKey m name) k = lookupKey m k) ∧
    (hasKey m name = false →
      remove_server name (.valid (.obj d)) = .ok (false, .valid (.obj d))) := by
  constructor
  · intro hhas
    refine ⟨?_, lookupKey_delKey_self m name hnd,
      fun k hk => lookupKey_delKey_ne m name k hk⟩
    simp [remove_server, load_config, hm, hhas, save_config]
  · intro hnot
    simp [remove_server, load_config, hm, hnot]

/-- C5 witness: removing `x` from a store containing exactly `x` and `y`
yields a store containing exactly `y`; removing `x` again returns `false`
and leaves the store unchanged. -/
theorem remove_server_exact_witness :
    remove_server "x" (.valid (.obj [("mcpServers",
        .obj [("x", .str "a"), ("y", .str "b")])])) =
      .ok (true, .valid (.obj [("mcpServers", .obj [("y", .str "b")])])) ∧
    remove_server "x" (.valid (.obj [("mcpServers",
        .obj [("y", .str "b")])])) =
      .ok (false, .valid (.obj [("mcpServers", .obj [("y", .str "b")])])) := by
  constructor
  · have h := (remove_server_exact "x"
        [("mcpServers", .obj [("x", .str "a"), ("y", .str "b")])]
        [("x", .str "a"), ("y", .str "b")] rfl (by decide)).1 (by rfl)
    exact h.1.trans (by rfl)
  · exact (remove_server_exact "x"
        [("mcpServers", .obj [("y", .str "b")])]
        [("y", .str "b")] rfl (by decide)).2 (by rfl)

/-- C6: two consecutive `add_server` calls with the same name leave exactly
one entry under that name, holding the second `{command, args, env}` triple
(an unconditional overwrite, not a merge), and the number of entries
reported by `list_servers` is unchanged across the second call. -/
theorem add_server_overwrite (d m : List (String × JVal)) (n c : String)
    (a : List JVal) (e : List (String × JVal)) (c2 : String) (a2 : List JVal)
    (e2 : List (String × JVal))
    (hm : lookupKey d "mcpServers" = some (.obj m))
    (hnd : (m.map Prod.fst).Nodup) :
    ∃ fc1 fc2 m1 m2,
      add_server n c a e (.valid (.obj d)) = .ok fc1 ∧
      add_server n c2 a2 e2 fc1 = .ok fc2 ∧
      list_servers fc1 = .ok m1 ∧
      list_servers fc2 = .ok m2 ∧
      m2.filter (fun kv => kv.1 == n) = [(n, serverEntry c2 a2 e2)] ∧
      m2.length = m1.length := by
  have hk : hasKey d "mcpServers" = true := hasKey_of_lookupKey_some hm
  set m1 := setKey m n (serverEntry c a e) with hm1
  set d1 := setKey d "mcpServers" (.obj m1) with hd1
  set m2 := setKey m1 n (serverEntry c2 a2 e2) with hm2
  set d2 := setKey d1 "mcpServers" (.obj m2) with hd2
  have hl1 : lookupKey d1 "mcpServers" = some (.obj m1) :=
    lookupKey_setKey_self d "mcpServers" (.obj m1)
  have hk1 : hasKey d1 "mcpServers" = true := hasKey_of_lookupKey_some hl1
  have hl2 : lookupKey d2 "mcpServers" = some (.obj m2) :=
    lookupKey_setKey_self d1 "mcpServers" (.obj m2)
  refine ⟨.valid (.obj d1), .valid (.obj d2), m1, m2, ?_, ?_, ?_, ?_, ?_, ?_⟩
  · simp [add_server, load_config, hk, hm, save_config, hd1, hm1]
  · simp [add_server, load_config, hk1, hl1, save_config, hd2, hm2]
  · simp [list_servers, load_config, hl1]
  · simp [list_servers, load_config, hl2]
  · exact filterKey_setKey_of_nodup m1 n (serverEntry c2 a2 e2)
      (nodup_keys_setKey m n (serverEntry c a e) hnd)
  · exact length_setKey_of_hasKey m1 n (serverEntry c2 a2 e2)
      (hasKey_setKey_self m n (serverEntry c a e))

/-- C6 witness: adding `n` twice over an initially empty store leaves
exactly one entry `n` with the second triple, and the store size is
unchanged across the second call. -/
theorem add_server_overwrite_witness :
    ∃ fc1 fc2 m1 m2,
      add_server "n" "cmd1" [] [] (.valid (.obj [("mcpServers", .obj [])])) =
        .ok fc1 ∧
      add_server "n" "cmd2" [.str "arg"] [("K", .str "V")] fc1 = .ok fc2 ∧
      list_servers fc1 = .ok m1 ∧
      list_servers fc2 = .ok m2 ∧
      m2.filter (fun kv => kv.1 == "n") =
        [("n", serverEntry "cmd2" [.str "arg"] [("K", .str "V")])] ∧
      m2.length = m1.length :=
  add_server_overwrite [("mcpServers", .obj [])] [] "n" "cmd1" [] [] "cmd2"
    [.str "arg"] [("K", .str "V")] rfl (by decide)

/-- C10: `add_server` and `remove_server` touch only the `mcpServers`
mapping: every other top-level entry of the written-back document (content
and position) and every instance entry other than the named one are exactly
those of the loaded document. -/
theorem config_ops_frame (d m : List (String × JVal)) (n c : String)
    (a : List JVal) (e : List (String × JVal))
    (hm : lookupKey d "mcpServers" = some (.obj m)) :
    (∃ d' m',
      add_server n c a e (.valid (.obj d)) = .ok (.valid (.obj d')) ∧
      lookupKey d' "mcpServers" = some (.obj m') ∧
      d'.filter (fun kv => kv.1 != "mcpServers") =
        d.filter (fun kv => kv.1 != "mcpServers") ∧
      m'.filter (fun kv => kv.1 != n) = m.filter (fun kv => kv.1 != n)) ∧
    (∃ r d' m',
      remove_server n (.valid (.obj d)) = .ok (r, .valid (.obj d')) ∧
      lookupKey d' "mcpServers" = some (.obj m') ∧
      d'.filter (fun kv => kv.1 != "mcpServers") =
        d.filter (fun kv => kv.1 != "mcpServers") ∧
      m'.filter (fun kv => kv.1 != n) = m.filter (fun kv => kv.1 != n)) := by
  have hk : hasKey d "mcpServers" = true := hasKey_of_lookupKey_some hm
  constructor
  · refine ⟨setKey d "mcpServers" (.obj (setKey m n (serverEntry c a e))),
      setKey m n (serverEntry c a e), ?_, ?_, ?_, ?_⟩
    · simp [add_server, load_config, hk, hm, save_config]
    · exact lookupKey_setKey_self d "mcpServers" _
    · exact filter_setKey d "mcpServers" _
    · exact filter_setKey m n _
  · by_cases hhas : hasKey m n = true
    · refine ⟨true, setKey d "mcpServers" (.obj (delKey m n)), delKey m n,
        ?_, ?_, ?_, ?_⟩
      · simp [remove_server, load_config, hm, hhas, save_config]
      · exact lookupKey_setKey_self d "mcpServers" _
      · exact filter_setKey d "mcpServers" _
      · exact filter_delKey m n
    · have hnot : hasKey m n = false := by simpa using hhas
      exact ⟨false, d, m,
        by simp [remove_server, load_config, hm, hnot], hm, rfl, rfl⟩

/-- C10 witness: on a document with a foreign top-level key and instances
`x`, `y`, adding `x` and removing `x` both leave the foreign key and the
entry `y` exactly in place. -/
theorem config_ops_frame_witness :
    (∃ d' m',
      add_server "x" "c" [] []
          (.valid (.obj [("hostSetting", .str "keep"),
            ("mcpServers", .obj [("x", .str "old"), ("y", .str "b")])])) =
        .ok (.valid (.obj d')) ∧
      lookupKey d' "mcpServers" = some (.obj m') ∧
      d'.filter (fun kv => kv.1 != "mcpServers") =
        [("hostSetting", JVal.str "keep")] ∧
      m'.filter (fun kv => kv.1 != "x") = [("y", JVal.str "b")]) ∧
    (∃ r d' m',
      remove_server "x"
          (.valid (.obj [("hostSetting", .str "keep"),
            ("mcpServers", .obj [("x", .str "old"), ("y", .str "b")])])) =
        .ok (r, .valid (.obj d')) ∧
      lookupKey d' "mcpServers" = some (.obj m') ∧
      d'.filter (fun kv => kv.1 != "mcpServers") =
        [("hostSetting", JVal.str "keep")] ∧
      m'.filter (fun kv => kv.1 != "x") = [("y", JVal.str "b")]) := by
  have h := config_ops_frame
    [("hostSetting", .str "keep"),
      ("mcpServers", .obj [("x", .str "old"), ("y", .str "b")])]
    [("x", .str "old"), ("y", .str "b")] "x" "c" [] [] rfl
  constructor
  · rcases h.1 with ⟨d', m', h1, h2, h3, h4⟩
    exact ⟨d', m', h1, h2, h3.trans (by rfl), h4.trans (by rfl)⟩
  · rcases h.2 with ⟨r, d', m', h1, h2, h3, h4⟩
    exact ⟨r, d', m', h1, h2, h3.trans (by rfl), h4.trans (by rfl)⟩

/-- C9: `validate_config` reports an instance that lacks a `command` field
with exactly one error mentioning the instance name and `valid = false`;
likewise an instance whose value is not a record; while a declared command
that exists neither directly on disk nor under any `PATH` entry produces
only a warning and leaves `valid = true`. -/
theorem validate_config_checks (fsE : String → Bool) (pd : List String)
    (n : String) :
    validate_config fsE pd (.valid (.obj [("mcpServers",
        .obj [(n, .obj [("args", .arr []), ("env", .obj [])])])])) =
      some ⟨false, ["Server '" ++ n ++ "' missing 'command' field"], []⟩ ∧
    (∀ s, validate_config fsE pd (.valid (.obj [("mcpServers",
        .obj [(n, .str s)])])) =
      some ⟨false, ["Server '" ++ n ++ "' config is not a dictionary"], []⟩) ∧
    (∀ c, c ≠ "" → fsE c = false →
      (∀ p ∈ pd, fsE (p ++ "/" ++ c) = false) →
      validate_config fsE pd (.valid (.obj [("mcpServers",
          .obj [(n, .obj [("command", .str c)])])])) =
        some ⟨true, [],
          ["Command '" ++ c ++ "' for server '" ++ n ++ "' may not exist"]⟩) := by
  refine ⟨?_, ?_, ?_⟩
  · simp [validate_config, lookupKey, validateEntries, validateEntry, hasKey,
      commandMayNotExist]
  · intro s
    simp [validate_config, lookupKey, validateEntries, validateEntry]
  · intro c hc hfs hpath
    have hbeq : (c == "") = false := by simpa using hc
    have hany : (pd.any fun p => fsE (p ++ "/" ++ c)) = false := by
      simp only [List.any_eq_false]
      intro p hp
      simp [hpath p hp]
    simp [validate_config, lookupKey, validateEntries, validateEntry, hasKey,
      commandMayNotExist, hbeq, hfs, hany]

/-- C9 witness: instantiates the three checks on a host where nothing
exists on disk and `PATH` has one entry. -/
theorem validate_config_checks_witness :
    validate_config (fun _ => false) ["/usr/bin"] (.valid (.obj [("mcpServers",
        .obj [("srv", .obj [("args", .arr []), ("env", .obj [])])])])) =
      some ⟨false, ["Server 'srv' missing 'command' field"], []⟩ ∧
    validate_config (fun _ => false) ["/usr/bin"] (.valid (.obj [("mcpServers",
        .obj [("srv", .str "oops")])])) =
      some ⟨false, ["Server 'srv' config is not a dictionary"], []⟩ ∧
    validate_config (fun _ => false) ["/usr/bin"] (.valid (.obj [("mcpServers",
        .obj [("srv", .obj [("command", .str "ghost")])])])) =
      some ⟨true, [], ["Command 'ghost' for server 'srv' may not exist"]⟩ := by
  have h := validate_config_checks (fun _ => false) ["/usr/bin"] "srv"
  exact ⟨h.1, h.2.1 "oops",
    h.2.2 "ghost" (by decide) rfl (fun p _ => rfl)⟩

theorem substituteArgs_some (u : List (String × String)) (req : List String)
    (tpl : List String)
    (h : ∀ t ∈ tpl, isPlaceholderToken t = true →
      alookup u (placeholderName t) = none → ¬placeholderName t ∈ req) :
    substituteArgs u req tpl = some (tpl.filterMap (specTokenResolve u)) := by
  induction tpl with
  | nil => simp [substituteArgs]
  | cons t rest ih =>
      have hrest := ih fun x hx => h x (List.mem_cons_of_mem _ hx)
      by_cases hp : isPlaceholderToken t = true
      · cases hl : alookup u (placeholderName t) with
        | some v =>
            simp [substituteArgs, hp, hl, hrest, specTokenResolve]
        | none =>
            have hreq : ¬placeholderName t ∈ req :=
              h t (List.mem_cons_self _ _) hp hl
            simp [substituteArgs, hp, hl, hreq, hrest, specTokenResolve]
      · have hp' : isPlaceholderToken t = false := by simpa using hp
        simp [substituteArgs, hp', hrest, specTokenResolve]

theorem substituteArgs_none (u : List (String × String)) (req : List String)
    (tpl : List String)
    (h : ∃ t ∈ tpl, isPlaceholderToken t = true ∧
      alookup u (placeholderName t) = none ∧ placeholderName t ∈ req) :
    substituteArgs u req tpl = none := by
  induction tpl with
  | nil => simp at h
  | cons t rest ih =>
      rcases h with ⟨w, hw, hwp, hwl, hwr⟩
      rcases List.mem_cons.mp hw with hwt | hw'
      · subst hwt
        simp [substituteArgs, hwp, hwl, hwr]
      · have hrec := ih ⟨w, hw', hwp, hwl, hwr⟩
        by_cases hpt : isPlaceholderToken t = true
        · cases hlt : alookup u (placeholderName t) with
          | some v => simp [substituteArgs, hpt, hlt, hrec]
          | none =>
              by_cases hmem : placeholderName t ∈ req
              · simp [substituteArgs, hpt, hlt, hmem]
              · simp [substituteArgs, hpt, hlt, hmem, hrec]
        · have hpt' : isPlaceholderToken t = false := by simpa using hpt
          simp [substituteArgs, hpt', hrec]

/-- C1: on the ordinary template path (no auto-detection, no git config),
`generate_install_command` walks `args_template` token by token: when every
unsupplied placeholder is optional it succeeds and the resulting `args` is
the template with supplied placeholders substituted, unsupplied optional
placeholders dropped, and all other tokens copied verbatim in order; when
some unsupplied placeholder is required, resolution fails (the Python
`return None`, the code's rendering of `MissingRequiredArgument`). -/
theorem generate_install_command_template (env : SysEnv)
    (registry : List (String × ServerInfo)) (sid : String)
    (user_args : List (String × String)) (server : ServerInfo)
    (hs : alookup registry sid = some server)
    (hauto : ¬server.command = "auto_detect")
    (hgit : ¬server.install_method = "git" ∨ server.git_config = none) :
    ((∀ t ∈ server.args_template, isPlaceholderToken t = true →
        alookup user_args (placeholderName t) = none →
        ¬placeholderName t ∈ server.required_args) →
      generate_install_command env registry sid user_args =
        some { server_id := sid, name := server.name,
               command := server.command,
               args := server.args_template.filterMap
                 (specTokenResolve user_args),
               env := buildEnvVars server.env_vars user_args,
               package := server.package,
               install_method := server.install_method }) ∧
    ((∃ t ∈ server.args_template, isPlaceholderToken t = true ∧
        alookup user_args (placeholderName t) = none ∧
        placeholderName t ∈ server.required_args) →
      generate_install_command env registry sid user_args = none) := by
  have hgitb : (decide (server.install_method = "git") &&
      server.git_config.isSome) = false := by
    rcases hgit with hgit | hgit
    · simp [hgit]
    · simp [hgit]
  constructor
  · intro hok
    simp [generate_install_command, hs, hauto, hgitb,
      substituteArgs_some user_args server.required_args
        server.args_template hok]
  · intro hfail
    simp [generate_install_command, hs, hauto, hgitb,
      substituteArgs_none user_args server.required_args
        server.args_template hfail]

/-- C1 witness: resolving the `filesystem` descriptor with `path` supplied
substitutes the placeholder; with `path` missing, a required placeholder is
unsupplied and resolution fails. -/
theorem generate_install_command_template_witness :
    generate_install_command envNone [("filesystem", filesystemInfo)]
        "filesystem" [("path", "/tmp/x")] =
      some { server_id := "filesystem", name := "Filesystem Server",
             command := "npx",
             args := ["-y", "@modelcontextprotocol/server-filesystem",
               "/tmp/x"],
             env := [], package := "@modelcontextprotocol/server-filesystem",
             install_method := "npm" } ∧
    generate_install_command envNone [("filesystem", filesystemInfo)]
        "filesystem" [] = none := by
  constructor
  · have h := (generate_install_command_template envNone
        [("filesystem", filesystemInfo)] "filesystem"
        [("path", "/tmp/x")] filesystemInfo rfl (by decide)
        (Or.inl (by decide))).1 (by decide)
    exact h.trans (by rfl)
  · exact (generate_install_command_template envNone
        [("filesystem", filesystemInfo)] "filesystem" [] filesystemInfo rfl
        (by decide) (Or.inl (by decide))).2
      ⟨"<path>", by simp [filesystemInfo], rfl, rfl,
        by simp [filesystemInfo, show placeholderName "<path>" = "path" from
          rfl]⟩

theorem tryPattern_eq_specCandidateResolve (env : SysEnv) (p : String) :
    tryPattern env p = specCandidateResolve env p := by
  unfold tryPattern specCandidateResolve
  by_cases h1 : strContains (expandEnvVars env p) "*" = true
  · simp [h1]
  · have h1' : strContains (expandEnvVars env p) "*" = false := by
      simpa using h1
    by_cases h2 : strStartsWith (expandEnvVars env p) "~" = true
    · simp [h1', h2]
    · have h2' : strStartsWith (expandEnvVars env p) "~" = false := by
        simpa using h2
      simp [h1', h2']

theorem tryDefaultPath_eq_specCandidateResolve (env : SysEnv) (p : String)
    (h1 : strContains (expandEnvVars env p) "*" = false)
    (h2 : strStartsWith (expandEnvVars env p) "~" = false) :
    tryDefaultPath env p = specCandidateResolve env p := by
  simp [tryDefaultPath, specCandidateResolve, h1, h2]

theorem firstSome_append (f : String → Option String) (a b : List String) :
    firstSome f (a ++ b) =
      match firstSome f a with
      | some r => some r
      | none => firstSome f b := by
  induction a with
  | nil => simp [firstSome]
  | cons x rest ih =>
      cases hfx : f x with
      | some r => simp [firstSome, hfx]
      | none => simp [firstSome, hfx, ih]

theorem firstSome_congr (f g : String → Option String) (l : List String)
    (h : ∀ x ∈ l, f x = g x) : firstSome f l = firstSome g l := by
  induction l with
  | nil => rfl
  | cons x rest ih =>
      have hx := h x (List.mem_cons_self _ _)
      have hr := ih fun y hy => h y (List.mem_cons_of_mem _ hy)
      simp [firstSome, hx, hr]

theorem firstSome_some {f : String → Option String} {l : List String}
    {p : String} (h : firstSome f l = some p) : ∃ x ∈ l, f x = some p := by
  induction l with
  | nil => simp [firstSome] at h
  | cons x rest ih =>
      cases hfx : f x with
      | some r =>
          rw [firstSome, hfx] at h
          exact ⟨x, List.mem_cons_self _ _, hfx.trans h⟩
      | none =>
          rw [firstSome, hfx] at h
          rcases ih h with ⟨y, hy, hfy⟩
          exact ⟨y, List.mem_cons_of_mem _ hy, hfy⟩

theorem firstExistingGlobMatch_exists {env : SysEnv} {ms : List String}
    {p : String} (h : firstExistingGlobMatch env ms = some p) :
    env.fsExists p = true := by
  induction ms with
  | nil => simp [firstExistingGlobMatch] at h
  | cons m rest ih =>
      by_cases hm : env.fsExists m = true
      · rw [firstExistingGlobMatch, if_pos hm] at h
        exact Option.some.inj h ▸ hm
      · rw [firstExistingGlobMatch, if_neg hm] at h
        exact ih h

theorem tryPattern_exists {env : SysEnv} {q p : String}
    (h : tryPattern env q = some p) : env.fsExists p = true := by
  simp only [tryPattern] at h
  split at h
  · exact firstExistingGlobMatch_exists h
  · split at h
    · split at h
      · rename_i hex
        injection h with h
        exact h ▸ hex
      · exact Option.noConfusion h
    · split at h
      · rename_i hex
        injection h with h
        exact h ▸ hex
      · exact Option.noConfusion h

theorem tryDefaultPath_exists {env : SysEnv} {q p : String}
    (h : tryDefaultPath env q = some p) : env.fsExists p = true := by
  simp only [tryDefaultPath] at h
  split at h
  · rename_i hex
    injection h with h
    exact h ▸ hex
  · exact Option.noConfusion h

theorem find_executable_never_missing {env : SysEnv} {server : ServerInfo}
    {p : String} (h : find_executable env server = some p) :
    env.fsExists p = true := by
  unfold find_executable at h
  split at h
  · exact Option.noConfusion h
  · split at h
    · rename_i q hfd
      rcases firstSome_some hfd with ⟨x, _, hx⟩
      injection h with h
      exact h ▸ tryDefaultPath_exists hx
    · rcases firstSome_some h with ⟨x, _, hx⟩
      exact tryPattern_exists hx

/-- C3: for an `auto_detect` descriptor with a platform bundle for the
running OS — whose `default_paths`, like every `default_paths` list in the
registry literal, contain no glob wildcard and no leading `~` after
environment expansion — executable discovery equals the claim's uniform
walk over `default_paths ++ executable_patterns` taking the first candidate
that exists (glob candidates expanded to their first on-disk match, `~`
expanded to the home directory, direct existence test otherwise); a
discovered path always exists on disk; and when no candidate exists,
resolution of the descriptor fails (the Python `return None`, the code's
rendering of `ExecutableNotFound`). -/
theorem find_executable_spec (env : SysEnv)
    (registry : List (String × ServerInfo)) (sid : String)
    (user_args : List (String × String)) (server : ServerInfo)
    (pinfo : PlatformInfo)
    (hs : alookup registry sid = some server)
    (hauto : server.command = "auto_detect")
    (hp : alookup server.platform_config (getPlatformKey env) = some pinfo)
    (hdp : ∀ q ∈ pinfo.default_paths,
      strContains (expandEnvVars env q) "*" = false ∧
      strStartsWith (expandEnvVars env q) "~" = false) :
    find_executable env server =
      firstSome (specCandidateResolve env)
        (pinfo.default_paths ++ pinfo.executable_patterns) ∧
    (∀ p, find_executable env server = some p → env.fsExists p = true) ∧
    (find_executable env server = none →
      generate_install_command env registry sid user_args = none) := by
  have hd : firstSome (tryDefaultPath env) pinfo.default_paths =
      firstSome (specCandidateResolve env) pinfo.default_paths :=
    firstSome_congr _ _ _ fun q hq =>
      tryDefaultPath_eq_specCandidateResolve env q (hdp q hq).1 (hdp q hq).2
  have hpat : firstSome (tryPattern env) pinfo.executable_patterns =
      firstSome (specCandidateResolve env) pinfo.executable_patterns :=
    firstSome_congr _ _ _ fun q _ => tryPattern_eq_specCandidateResolve env q
  have hmain : find_executable env server =
      firstSome (specCandidateResolve env)
        (pinfo.default_paths ++ pinfo.executable_patterns) := by
    rw [firstSome_append, ← hd, ← hpat]
    cases hfd : firstSome (tryDefaultPath env) pinfo.default_paths with
    | some q => simp [find_executable, hp, hfd]
    | none => simp [find_executable, hp, hfd]
  refine ⟨hmain, fun p hp' => find_executable_never_missing hp', ?_⟩
  intro hnone
  have hcfg : configure_platform_specific env server = none := by
    simp [configure_platform_specific, hauto, hp, hnone]
  simp [generate_install_command, hs, hauto, hcfg]

/-- C3 witness: with only `/b` on disk, discovery for the sandbox
descriptor over `default_paths = ["/a", "/b"]` returns `/b`; with nothing
on disk, discovery returns nothing and resolution of the descriptor
fails. -/
theorem find_executable_spec_witness :
    find_executable envOnlyB sandboxInfo = some "/b" ∧
    find_executable envNone sandboxInfo = none ∧
    generate_install_command envNone [("cs", sandboxInfo)] "cs" [] = none := by
  have hB := find_executable_spec envOnlyB [("cs", sandboxInfo)] "cs" []
    sandboxInfo
    ⟨"sh", ["-c", "{HOME}/.local/bin/code-sandbox-mcp"], ["/a", "/b"], []⟩
    rfl rfl rfl (by decide)
  have hN := find_executable_spec envNone [("cs", sandboxInfo)] "cs" []
    sandboxInfo
    ⟨"sh", ["-c", "{HOME}/.local/bin/code-sandbox-mcp"], ["/a", "/b"], []⟩
    rfl rfl rfl (by decide)
  refine ⟨hB.1.trans (by rfl), hN.1.trans (by rfl), ?_⟩
  exact hN.2.2 (hN.1.trans (by rfl))

/-- C2 (divergence evidence): on a registry in which an id containing the
query precedes the exact-id match in insertion order, the second `search`
definition of the class body (the operative one under Python's
later-definition-wins rule) returns the matches unranked, in insertion
order — `timezone-helper` before the exact match `time` — while the first
`search` definition implements the claimed ranking and places the exact id
first. -/
theorem search_definitions_disagree :
    (search_v2 miniRegistry "time").map Prod.fst =
      ["timezone-helper", "time"] ∧
    (search_v1 miniRegistry "time").map Prod.fst =
      ["time", "timezone-helper"] := by
  exact ⟨by decide, by decide⟩

end CDMP
